import Mathlib

/-!
Verification development for the jpeg2avi asynchronous conversion pipeline.

The embedding models the JavaScript sources:
  * `job-service.js` (Job Registry + Work Queue over Redis): `createJob`,
    `getJobStatus`, `updateJobStatus`, `getNextJob`, `deleteJob`;
  * `conversion-worker.js` (Worker Loop + Conversion Pipeline): `processJob`,
    `withTimeout`, `cleanupTempFiles`, the worker `start` loop.

JavaScript objects are modelled as association lists of string keys and
`JVal` values; object spread `\x7b...a, ...b\x7d` keeps the later object's
value for a duplicated key, which the model realises by `spread`, whose
lookups agree with the JavaScript semantics.  Redis is modelled as an
association-list store with per-key TTL plus a list used with
LPUSH / BRPOP exactly as the source does.
-/

namespace Jpeg2Avif

/-- A JavaScript value as it appears in the job records of the source:
strings, numbers, booleans and nested objects. -/
inductive JVal where
  | str : String → JVal
  | num : Int → JVal
  | bool : Bool → JVal
  | obj : List (String × JVal) → JVal
deriving Repr

/-- A JavaScript object: an association list from keys to values.  Lookup
takes the first binding for a key. -/
abbrev Obj := List (String × JVal)

/-- Property read `o[k]`; `none` plays the role of `undefined`. -/
def jget (o : Obj) (k : String) : Option JVal := List.lookup k o

/-- Object spread `\x7b ...a, ...b \x7d`: for every key, `b`'s binding wins and
`a` is the fallback.  Prepending `b` gives exactly these lookups. -/
def spread (a b : Obj) : Obj := b ++ a

/-- Property assignment `o[k] = v` (later lookups of `k` see `v`). -/
def jset (o : Obj) (k : String) (v : JVal) : Obj := (k, v) :: o

/-- JavaScript truthiness of a value, as used by the source's `if` tests. -/
def truthy : JVal → Bool
  | .str s => !(s == "")
  | .num n => !(n == 0)
  | .bool b => b
  | .obj _ => true

/-- Truthiness of a possibly-undefined property. -/
def truthyOpt : Option JVal → Bool
  | none => false
  | some v => truthy v

/-- String interpolation of a possibly-undefined property, as in
template literals of the source. -/
def jsToString : Option JVal → String
  | none => "undefined"
  | some (.str s) => s
  | some (.num n) => toString n
  | some (.bool b) => toString b
  | some (.obj _) => "[object Object]"

theorem jget_spread (a b : Obj) (k : String) :
    jget (spread a b) k =
      match jget b k with
      | some v => some v
      | none => jget a k := by
  unfold jget spread
  induction b with
  | nil => simp [List.lookup]
  | cons hd tl ih =>
    by_cases h : k = hd.1
    · simp [List.lookup, h]
    · simp only [List.cons_append, List.lookup]
      have hb : (k == hd.1) = false := by
        simp [h]
      simp [hb, ih]

theorem jget_jset_self (o : Obj) (k : String) (v : JVal) :
    jget (jset o k v) k = some v := by
  simp [jget, jset, List.lookup]

theorem jget_jset_ne (o : Obj) (k k' : String) (v : JVal) (h : k' ≠ k) :
    jget (jset o k v) k' = jget o k' := by
  have hb : (k' == k) = false := by simp [h]
  simp [jget, jset, List.lookup, hb]

/-- Value stored under a Redis key: the serialized object plus the expiry
(in seconds) it was written with. -/
structure StoreEntry where
  value : Obj
  ttl : Nat
deriving Repr

/-- The Redis key/value table. -/
abbrev Store := List (String × StoreEntry)

def storeGet (s : Store) (k : String) : Option StoreEntry := List.lookup k s

/-- `redisService.set(key, value, ttl)`: replaces any previous binding. -/
def storeSet (s : Store) (k : String) (e : StoreEntry) : Store :=
  (k, e) :: s.filter (fun p => p.1 != k)

/-- `redisService.del(key)`. -/
def storeDel (s : Store) (k : String) : Store :=
  s.filter (fun p => p.1 != k)

theorem lookup_filter_ne {β : Type} (s : List (String × β)) (k k' : String)
    (h : k' ≠ k) :
    List.lookup k' (s.filter (fun p => p.1 != k)) = List.lookup k' s := by
  induction s with
  | nil => simp
  | cons hd tl ih =>
    by_cases hk : hd.1 = k
    · have hb : (hd.1 != k) = false := by simp [hk]
      have hne : (k' == hd.1) = false := by
        simp [hk, h]
      simp [List.filter, hb, List.lookup, hne, ih]
    · have hb : (hd.1 != k) = true := by simp [hk]
      by_cases hk' : k' = hd.1
      · simp [List.filter, hb, List.lookup, hk']
      · have hne : (k' == hd.1) = false := by simp [hk']
        simp [List.filter, hb, List.lookup, hne, ih]

theorem storeGet_set_self (s : Store) (k : String) (e : StoreEntry) :
    storeGet (storeSet s k e) k = some e := by
  simp [storeGet, storeSet, List.lookup]

theorem storeGet_set_ne (s : Store) (k k' : String) (e : StoreEntry)
    (h : k' ≠ k) :
    storeGet (storeSet s k e) k' = storeGet s k' := by
  have hne : (k' == k) = false := by simp [h]
  simp [storeGet, storeSet, List.lookup, hne, lookup_filter_ne s k k' h]

theorem storeGet_del_self (s : Store) (k : String) :
    storeGet (storeDel s k) k = none := by
  induction s with
  | nil => simp [storeGet, storeDel]
  | cons hd tl ih =>
    by_cases hk : hd.1 = k
    · have hb : (hd.1 != k) = false := by simp [hk]
      simpa [storeGet, storeDel, List.filter, hb] using ih
    · have hb : (hd.1 != k) = true := by simp [hk]
      have hne : (k == hd.1) = false := by
        simp only [beq_eq_false_iff_ne, ne_eq]
        exact fun h => hk h.symm
      simpa [storeGet, storeDel, List.filter, hb, List.lookup, hne] using ih

/-- An entry of the work queue: the envelope `\x7b jobId \x7d` pushed by
`createJob` and popped by `getNextJob`. -/
structure QueueEntry where
  jobId : String
deriving Repr

/-- `LPUSH`: prepend at the head of the Redis list. -/
def lpush (e : QueueEntry) (q : List QueueEntry) : List QueueEntry := e :: q

/-- `BRPOP`: remove and return the element at the tail of the list, which is
the oldest pushed entry; `none` models the timeout on an empty queue. -/
def brpop (q : List QueueEntry) : Option (QueueEntry × List QueueEntry) :=
  match q.reverse with
  | [] => none
  | e :: rest => some (e, rest.reverse)

theorem brpop_length {q : List QueueEntry} {e : QueueEntry}
    {rest : List QueueEntry} (h : brpop q = some (e, rest)) :
    rest.length < q.length := by
  unfold brpop at h
  cases hr : q.reverse with
  | nil => rw [hr] at h; exact absurd h (by simp)
  | cons a t =>
    rw [hr] at h
    simp only [Option.some.injEq, Prod.mk.injEq] at h
    obtain ⟨rfl, rfl⟩ := h
    have hq : q.length = t.length + 1 := by
      have := congrArg List.length hr
      simpa [List.length_reverse] using this
    simp [hq, List.length_reverse]

/-- Repeatedly `BRPOP` until the queue is empty, collecting the popped
entries in order of delivery. -/
def drainAll (q : List QueueEntry) : List QueueEntry :=
  match h : brpop q with
  | none => []
  | some (e, rest) => e :: drainAll rest
termination_by q.length
decreasing_by exact brpop_length h

/-- Push a batch of entries in arrival order, as successive producers do. -/
def lpushAll (es : List QueueEntry) (q : List QueueEntry) : List QueueEntry :=
  es.foldl (fun acc e => lpush e acc) q

theorem lpushAll_eq (es : List QueueEntry) (q : List QueueEntry) :
    lpushAll es q = es.reverse ++ q := by
  induction es generalizing q with
  | nil => simp [lpushAll]
  | cons hd tl ih =>
    show lpushAll tl (lpush hd q) = (hd :: tl).reverse ++ q
    rw [ih]
    simp [lpush]

theorem brpop_append (l : List QueueEntry) (e : QueueEntry) :
    brpop (l ++ [e]) = some (e, l) := by
  simp [brpop]

theorem drainAll_append (l : List QueueEntry) (e : QueueEntry) :
    drainAll (l ++ [e]) = e :: drainAll l := by
  rw [drainAll]
  split
  · next heq =>
      rw [brpop_append] at heq
      exact absurd heq (by simp)
  · next e' rest heq =>
      rw [brpop_append] at heq
      simp only [Option.some.injEq, Prod.mk.injEq] at heq
      obtain ⟨h1, h2⟩ := heq
      subst h1
      subst h2
      rfl

theorem drainAll_eq_reverse (q : List QueueEntry) : drainAll q = q.reverse := by
  induction q using List.reverseRecOn with
  | nil =>
    rw [drainAll]
    split
    · next => rfl
    · next e rest heq =>
        exact absurd heq (by simp [brpop])
  | append_singleton l e ih =>
    rw [drainAll_append, ih]
    simp

/-- The shared mutable state: the Redis key/value table and the job queue
list under the fixed queue key. -/
structure SysState where
  store : Store
  queue : List QueueEntry
deriving Repr

def keyPrefix : String := "jpeg2avif:job:"

def jobKey (jobId : String) : String := keyPrefix ++ jobId

/-- The default fields built by `createJob` before `jobData` is spread over
them: fresh identifier, status `queued`, and the two timestamps. -/
def createDefaults (now jobId : String) : Obj :=
  [("id", .str jobId), ("status", .str "queued"),
   ("createdAt", .str now), ("updatedAt", .str now)]

/-- `createJob(jobData)` of `job-service.js`.  `connected` models
`redisService.isConnected()`; `setErr` and `pushErr` inject a thrown error
from the Redis `set` and `lpush` calls; `now` is the ISO timestamp taken at
entry and `jobId` the freshly generated UUID.  The record is stored with the
24-hour expiry, then the envelope is pushed onto the queue. -/
def createJob (connected : Bool) (setErr pushErr : Option String)
    (now jobId : String) (jobData : Obj) (st : SysState) :
    Except String (SysState × Obj) :=
  let job := spread (createDefaults now jobId) jobData
  if connected = false then
    .error "Redis not connected - cannot create job"
  else
    match setErr with
    | some e => .error ("Failed to create job: " ++ e)
    | none =>
      let st1 : SysState :=
        { st with store := storeSet st.store (jobKey jobId) ⟨job, 86400⟩ }
      match pushErr with
      | some e => .error ("Failed to create job: " ++ e)
      | none =>
        let st2 : SysState := { st1 with queue := lpush ⟨jobId⟩ st1.queue }
        .ok (st2, job)

/-- The successive shared states produced by `createJob`, in program order:
the initial state, the state after the Redis `set` of the record, and the
state after the `lpush` of the queue envelope.  Whenever an operation throws
first, the later states are never reached. -/
def createJobStates (connected : Bool) (setErr pushErr : Option String)
    (now jobId : String) (jobData : Obj) (st : SysState) : List SysState :=
  let job := spread (createDefaults now jobId) jobData
  if connected = false then [st]
  else
    match setErr with
    | some _ => [st]
    | none =>
      let st1 : SysState :=
        { st with store := storeSet st.store (jobKey jobId) ⟨job, 86400⟩ }
      match pushErr with
      | some _ => [st, st1]
      | none => [st, st1, { st1 with queue := lpush ⟨jobId⟩ st1.queue }]

theorem createJob_last_state (connected : Bool) (setErr pushErr : Option String)
    (now jobId : String) (jobData : Obj) (st : SysState) (st' : SysState)
    (job : Obj)
    (h : createJob connected setErr pushErr now jobId jobData st = .ok (st', job)) :
    (createJobStates connected setErr pushErr now jobId jobData st).getLast? =
      some st' := by
  unfold createJob at h
  unfold createJobStates
  cases connected with
  | false => simp at h
  | true =>
    cases setErr with
    | some e => simp at h
    | none =>
      cases pushErr with
      | some e => simp at h
      | none =>
        simp only [if_neg (by simp : ¬ true = false), Except.ok.injEq,
          Prod.mk.injEq] at h
        simp [h.1]

/-- `getJobStatus(jobId)` of `job-service.js`: reads the record, `null`
(here `none`) when the key is absent or expired. -/
def getJobStatus (connected : Bool) (st : SysState) (jobId : String) :
    Except String (Option Obj) :=
  if connected = false then
    .error "Redis not connected - cannot get job status"
  else
    .ok ((storeGet st.store (jobKey jobId)).map (fun e => e.value))

/-- The read half of `updateJobStatus`: the connectivity check and the
internal `getJobStatus` with its not-found check, up to but excluding the
Redis `set`.  Errors are wrapped exactly as the source's catch does. -/
def updateGetPhase (connected : Bool) (jobId : String) (st : SysState) :
    Except String Obj :=
  if connected = false then
    .error "Redis not connected - cannot update job status"
  else
    match getJobStatus connected st jobId with
    | .error e => .error ("Failed to update job status: " ++ e)
    | .ok none => .error ("Failed to update job status: Job " ++ jobId ++ " not found")
    | .ok (some job) => .ok job

/-- The write half of `updateJobStatus`: build
`\x7b ...job, ...updates, updatedAt \x7d` and `set` it with the 24-hour
expiry.  It is a plain write: it performs no existence check of its own. -/
def updateWritePhase (now jobId : String) (job updates : Obj) (st : SysState) :
    SysState × Obj :=
  let updatedJob := spread (spread job updates) [("updatedAt", .str now)]
  ({ st with store := storeSet st.store (jobKey jobId) ⟨updatedJob, 86400⟩ },
   updatedJob)

/-- `updateJobStatus(jobId, updates)` of `job-service.js`: the internal get
followed by the merging write. -/
def updateJobStatus (connected : Bool) (now jobId : String) (updates : Obj)
    (st : SysState) : Except String (SysState × Obj) :=
  match updateGetPhase connected jobId st with
  | .error e => .error e
  | .ok job => .ok (updateWritePhase now jobId job updates st)

/-- `deleteJob(jobId)` of `job-service.js`. -/
def deleteJob (connected : Bool) (jobId : String) (st : SysState) :
    Except String SysState :=
  if connected = false then
    .error "Redis not connected - cannot delete job"
  else
    .ok { st with store := storeDel st.store (jobKey jobId) }

/-- `getNextJob()` of `job-service.js`: `BRPOP` with a 30-second timeout,
then load the record behind the popped envelope; a popped envelope whose
record is absent is logged and dropped (`none`). -/
def getNextJob (connected : Bool) (st : SysState) :
    Except String (SysState × Option Obj) :=
  if connected = false then
    .error "Redis not connected - cannot get next job"
  else
    match brpop st.queue with
    | none => .ok (st, none)
    | some (entry, rest) =>
      let st' : SysState := { st with queue := rest }
      match getJobStatus connected st' entry.jobId with
      | .error e => .error ("Failed to get next job: " ++ e)
      | .ok none => .ok (st', none)
      | .ok (some job) => .ok (st', some job)

theorem updateJobStatus_ok (st : SysState) (jobId t : String) (updates : Obj)
    (entry : StoreEntry)
    (h : storeGet st.store (jobKey jobId) = some entry) :
    updateJobStatus true t jobId updates st =
      .ok (updateWritePhase t jobId entry.value updates st) := by
  simp [updateJobStatus, updateGetPhase, getJobStatus, h]

theorem updateJobStatus_absent (st : SysState) (jobId t : String)
    (updates : Obj)
    (h : storeGet st.store (jobKey jobId) = none) :
    updateJobStatus true t jobId updates st =
      .error ("Failed to update job status: Job " ++ jobId ++ " not found") := by
  simp [updateJobStatus, updateGetPhase, getJobStatus, h]

theorem jget_updatedJob (job updates : Obj) (t k : String)
    (hk : k ≠ "updatedAt") :
    jget (spread (spread job updates) [("updatedAt", .str t)]) k =
      match jget updates k with
      | some v => some v
      | none => jget job k := by
  rw [jget_spread]
  have h1 : jget [("updatedAt", JVal.str t)] k = none := by
    have hb : (k == "updatedAt") = false := by simp [hk]
    simp [jget, List.lookup, hb]
  rw [h1, jget_spread]

theorem jget_updatedJob_updatedAt (job updates : Obj) (t : String) :
    jget (spread (spread job updates) [("updatedAt", .str t)]) "updatedAt" =
      some (.str t) := by
  rw [jget_spread]
  simp [jget, List.lookup]

/-! ### Conversion worker (`conversion-worker.js`) -/

/-- A staged file: its byte content and the metadata tags embedded in it. -/
structure FileData where
  bytes : List Nat
  meta : Obj
deriving Repr

/-- The temp-directory filesystem used to interoperate with exiftool:
paths mapped to file data. -/
abbrev FS := List (String × FileData)

def fsGet (fs : FS) (p : String) : Option FileData := List.lookup p fs

/-- `fs.writeFileSync`: a fresh binary write carries no embedded tags the
model tracks (the AVIF encoder output carries no EXIF of the original). -/
def fsWrite (fs : FS) (p : String) (bytes : List Nat) : FS :=
  (p, ⟨bytes, []⟩) :: fs.filter (fun q => q.1 != p)

/-- `fs.unlinkSync`. -/
def fsUnlink (fs : FS) (p : String) : FS :=
  fs.filter (fun q => q.1 != p)

/-- `fs.existsSync`. -/
def fsExists (fs : FS) (p : String) : Bool := (fsGet fs p).isSome

/-- `exiftool.write(path, tags, [-overwrite_original])`: merge the given
tags into the file's embedded metadata.  In the pipeline it is only called
on files just written, so the missing-file branch is never reached. -/
def exifWriteFile (fs : FS) (p : String) (tags : Obj) : FS :=
  match fsGet fs p with
  | none => fs
  | some fd => (p, ⟨fd.bytes, spread fd.meta tags⟩) :: fs.filter (fun q => q.1 != p)

def tempDirPath : String := "temp/"

def tempOriginalPath (jobId : String) : String :=
  tempDirPath ++ jobId ++ "_original.jpg"

def tempThumbPath (jobId name : String) : String :=
  tempDirPath ++ jobId ++ "_" ++ name ++ "_thumb.avif"

def tempFullPath (jobId name : String) : String :=
  tempDirPath ++ jobId ++ "_" ++ name ++ ".avif"

/-- One `forEach` step of `cleanupTempFiles`: unlink the file when it
exists (a failing unlink is only logged; the model's unlink succeeds). -/
def unlinkIfExists (fs : FS) (p : String) : FS :=
  if fsExists fs p then fsUnlink fs p else fs

/-- `cleanupTempFiles` of `processJob`: remove the three staged files of
this job, in the order of the source's array literal. -/
def cleanupTempFiles (jobId name : String) (fs : FS) : FS :=
  unlinkIfExists
    (unlinkIfExists
      (unlinkIfExists fs (tempOriginalPath jobId))
      (tempThumbPath jobId name))
    (tempFullPath jobId name)

/-- `withTimeout(promise, timeoutMs, description)`: the race of the stage
against a timer.  `dur` is how long the stage takes; when it exceeds the
bound the timer rejects first with the source's message, otherwise the
stage's own outcome is returned. -/
def withTimeout {α : Type} (dur : Nat) (result : Except String α)
    (timeoutMs : Nat) (description : String) : Except String α :=
  if timeoutMs < dur then
    .error (description ++ " timed out after " ++ toString timeoutMs ++ "ms")
  else result

/-- The environment of one run of the conversion pipeline: for each call
the source awaits, how long it takes and what it produces.  The source
wraps only the two variant conversions and the two metadata copies in
`withTimeout`; `exiftool.read` and `Jimp.read` are awaited bare, so their
durations (`exifDur`, `jimpDur`) never influence control flow. -/
structure StageOutcomes where
  exifDur : Nat
  exifRead : Except String Obj
  jimpDur : Nat
  jimpRead : Except String (Int × Int)
  thumbDur : Nat
  thumbConv : Except String (List Nat)
  fullDur : Nat
  fullConv : Except String (List Nat)
  thumbMetaDur : Nat
  thumbMetaWrite : Except String Unit
  fullMetaDur : Nat
  fullMetaWrite : Except String Unit

/-- Assignment `m[k] = om[k]`; when `om[k]` is undefined the key carries
no value exiftool would write, so the model leaves it unset. -/
def jsetFrom (m : Obj) (k : String) (om : Obj) : Obj :=
  match jget om k with
  | some v => jset m k v
  | none => m

/-- The dimension and timestamp part of `metadataToPreserve`
(lines 169-180 of `conversion-worker.js`): image width and height, then
the first truthy one of `DateTimeOriginal`, `DateTime`, `CreateDate`. -/
def metaBase (width height : Int) (om : Obj) : Obj :=
  let m := jset [] "ImageWidth" (.num width)
  let m := jset m "ImageHeight" (.num height)
  if truthyOpt (jget om "DateTimeOriginal") then
    jsetFrom m "DateTimeOriginal" om
  else if truthyOpt (jget om "DateTime") then
    jsetFrom m "DateTime" om
  else if truthyOpt (jget om "CreateDate") then
    jsetFrom m "CreateDate" om
  else m

/-- Lines 167-188 of `conversion-worker.js`: assemble `metadataToPreserve`
from the decoded dimensions and the original's EXIF, using JavaScript
truthiness for the timestamp chain and the GPS guard. -/
def buildMetadataToPreserve (width height : Int) (om : Obj) : Obj :=
  if truthyOpt (jget om "GPSLatitude") && truthyOpt (jget om "GPSLongitude") then
    jsetFrom
      (jsetFrom
        (jsetFrom (jsetFrom (metaBase width height om) "GPSLatitude" om)
          "GPSLongitude" om)
        "GPSLatitudeRef" om)
      "GPSLongitudeRef" om
  else metaBase width height om

/-- `Buffer.from(job.imageData, base64)`; a missing or non-string field
makes `Buffer.from` throw a TypeError.  The byte decoding itself is
opaque to every claim and modelled by the character codes. -/
def getImageBuffer (job : Obj) : Except String (List Nat) :=
  match jget job "imageData" with
  | some (.str s) => .ok (s.data.map Char.toNat)
  | _ => .error "The first argument must be of type string or an instance of Buffer"

/-- `path.parse(name).name`: the file name without its final extension
(the characters before the last dot, the whole string when there is no
dot). -/
def parseName (s : String) : String :=
  if s.data.contains (Char.ofNat 46) then
    String.mk (((s.data.reverse.dropWhile
      (fun c => c != Char.ofNat 46)).drop 1).reverse)
  else s

/-- `path.parse(job.originalName).name`; `path.parse` throws on a
missing or non-string argument. -/
def getOriginalName (job : Obj) : Except String String :=
  match jget job "originalName" with
  | some (.str s) => .ok (parseName s)
  | _ => .error "The path argument must be of type string"

/-- Rendering of a buffer as the base64 text stored in the record; its
content is opaque to every claim. -/
def bufToData (b : List Nat) : String := toString b

/-- The `results` object of the `completed` update (lines 216-236). -/
def buildResults (name : String) (thumbBuf fullBuf inputBuf : List Nat)
    (om : Obj) (w h : Int) : JVal :=
  .obj
    [("thumbnail", .obj
        [("filename", .str (name ++ "_thumb.avif")),
         ("data", .str (bufToData thumbBuf)),
         ("size", .num thumbBuf.length),
         ("format", .str "avif")]),
     ("fullSize", .obj
        [("filename", .str (name ++ ".avif")),
         ("data", .str (bufToData fullBuf)),
         ("size", .num fullBuf.length),
         ("format", .str "avif")]),
     ("originalSize", .num inputBuf.length),
     ("metadataPreserved", .bool true),
     ("preservedMetadata", .obj
        [("hasGPS", .bool (truthyOpt (jget om "GPSLatitude") &&
                           truthyOpt (jget om "GPSLongitude"))),
         ("hasTimestamp", .bool (truthyOpt (jget om "DateTimeOriginal") ||
                                 truthyOpt (jget om "DateTime") ||
                                 truthyOpt (jget om "CreateDate"))),
         ("dimensions", .str (toString w ++ "x" ++ toString h))])]

/-- The body of the inner `try` of `processJob` (lines 99-245): staging,
metadata extraction, decoding, the four time-bounded calls, metadata
re-attachment, the success-path cleanup and the `completed` update.  The
returned filesystem is the one at the exit point, before any catch-side
cleanup; an error is the conversion error the inner catch rethrows. -/
def innerPipeline (connected : Bool) (t2 : String) (ptime : Nat)
    (o : StageOutcomes) (jobIdStr name : String) (inputBuffer : List Nat)
    (st : SysState) (fs : FS) : FS × Except String SysState :=
  let fs1 := fsWrite fs (tempOriginalPath jobIdStr) inputBuffer
  match o.exifRead with
  | .error e => (fs1, .error ("Metadata extraction failed: " ++ e))
  | .ok om =>
  match o.jimpRead with
  | .error e => (fs1, .error e)
  | .ok wh =>
  match withTimeout o.thumbDur o.thumbConv 30000 "Thumbnail conversion" with
  | .error e => (fs1, .error e)
  | .ok thumbBuf =>
  match withTimeout o.fullDur o.fullConv 60000 "Full-size conversion" with
  | .error e => (fs1, .error e)
  | .ok fullBuf =>
  let fs2 := fsWrite fs1 (tempThumbPath jobIdStr name) thumbBuf
  let fs3 := fsWrite fs2 (tempFullPath jobIdStr name) fullBuf
  let mtp := buildMetadataToPreserve wh.1 wh.2 om
  match withTimeout o.thumbMetaDur o.thumbMetaWrite 10000 "Thumbnail metadata copy" with
  | .error e => (fs3, .error e)
  | .ok _ =>
  let fs4 := exifWriteFile fs3 (tempThumbPath jobIdStr name) mtp
  match withTimeout o.fullMetaDur o.fullMetaWrite 10000 "Full-size metadata copy" with
  | .error e => (fs4, .error e)
  | .ok _ =>
  let fs5 := exifWriteFile fs4 (tempFullPath jobIdStr name) mtp
  match fsGet fs5 (tempThumbPath jobIdStr name),
        fsGet fs5 (tempFullPath jobIdStr name) with
  | some ftd, some ffd =>
    let fs6 := cleanupTempFiles jobIdStr name fs5
    match updateJobStatus connected t2 jobIdStr
        [("status", .str "completed"), ("processingTime", .num ptime),
         ("results", buildResults name ftd.bytes ffd.bytes inputBuffer om wh.1 wh.2)]
        st with
    | .error e => (fs6, .error e)
    | .ok (st', _) => (fs6, .ok st')
  | _, _ => (fs5, .error "ENOENT: no such file or directory")

/-- The outcome of one `processJob` call: final shared state, final temp
filesystem, whether an exception escaped to the worker loop, and the
successive shared states written by the job's status updates. -/
structure ProcResult where
  st : SysState
  fs : FS
  ret : Except String Unit
  trace : List SysState

/-- The update object of the outer-catch `failed` write (lines 255-259). -/
def failedUpdates (e : String) (ptime : Nat) : Obj :=
  [("status", .str "failed"), ("error", .str e), ("processingTime", .num ptime)]

/-- The outer catch of `processJob`: write the `failed` terminal state with
the error's message; if that update itself throws, the exception escapes
to the worker loop. -/
def outerFail (connected : Bool) (t2 : String) (ptime : Nat)
    (jobIdStr : String) (st : SysState) (fs : FS) (tr : List SysState)
    (e : String) : ProcResult :=
  match updateJobStatus connected t2 jobIdStr (failedUpdates e ptime) st with
  | .ok p => ⟨p.1, fs, .ok (), tr ++ [p.1]⟩
  | .error e2 => ⟨st, fs, .error e2, tr⟩

/-- The body of `processJob` once the interpolated job identifier
`jobIdStr` is fixed: flip the record to `processing`, decode the payload,
run the staged pipeline with cleanup on both exits, and write the terminal
state.  `t1` and `t2` are the ISO timestamps of the two status updates and
`ptime` the measured duration. -/
def processJobAux (connected : Bool) (t1 t2 : String) (ptime : Nat)
    (o : StageOutcomes) (st : SysState) (fs : FS) (job : Obj)
    (jobIdStr : String) : ProcResult :=
  match updateJobStatus connected t1 jobIdStr [("status", .str "processing")] st with
  | .error e => outerFail connected t2 ptime jobIdStr st fs [] e
  | .ok p =>
    let st1 := p.1
    match getImageBuffer job with
    | .error e => outerFail connected t2 ptime jobIdStr st1 fs [st1] e
    | .ok inputBuffer =>
      match getOriginalName job with
      | .error e => outerFail connected t2 ptime jobIdStr st1 fs [st1] e
      | .ok name =>
        let r := innerPipeline connected t2 ptime o jobIdStr name inputBuffer st1 fs
        match r.2 with
        | .ok st2 => ⟨st2, r.1, .ok (), [st1, st2]⟩
        | .error e =>
          let fs2 := cleanupTempFiles jobIdStr name r.1
          outerFail connected t2 ptime jobIdStr st1 fs2 [st1] e

/-- `processJob(job)` of `conversion-worker.js`; the identifier used for
both status updates and the temp paths is the interpolation of `job.id`. -/
def processJob (connected : Bool) (t1 t2 : String) (ptime : Nat)
    (o : StageOutcomes) (st : SysState) (fs : FS) (job : Obj) : ProcResult :=
  processJobAux connected t1 t2 ptime o st fs job (jsToString (jget job "id"))

/-- The per-iteration environment of the worker loop. -/
structure IterEnv where
  connected : Bool
  t1 : String
  t2 : String
  ptime : Nat
  outcomes : StageOutcomes

/-- One iteration of the `while (isRunning)` loop of `start()`: pop the
next job and process it; any exception of the body is caught at the loop
boundary and the loop goes on with the state as of the throw. -/
def workerStep (env : IterEnv) (st : SysState) (fs : FS) : SysState × FS :=
  match getNextJob env.connected st with
  | .error _ => (st, fs)
  | .ok p =>
    match p.2 with
    | none => (p.1, fs)
    | some job =>
      let r := processJob env.connected env.t1 env.t2 env.ptime env.outcomes p.1 fs job
      (r.st, r.fs)

/-- The worker loop over a finite schedule of iteration environments. -/
def runWorker (envs : List IterEnv) (st : SysState) (fs : FS) : SysState × FS :=
  match envs with
  | [] => (st, fs)
  | env :: rest =>
    let p := workerStep env st fs
    runWorker rest p.1 p.2

/-- Producer followed by worker, as wired by `server.js` and `start()`:
create the record and queue entry, then process the created job; returns
the successive shared states written for the job (after creation and after
each status update) together with the final filesystem. -/
def createThenProcess (t0 t1 t2 : String) (ptime : Nat) (jobId : String)
    (jobData : Obj) (o : StageOutcomes) (st : SysState) (fs : FS) :
    Option (List SysState × FS) :=
  match createJob true none none t0 jobId jobData st with
  | .error _ => none
  | .ok (st1, job) =>
    let r := processJob true t1 t2 ptime o st1 fs job
    some (st1 :: r.trace, r.fs)

/-- The given field of the given job's record in a state, when present. -/
def jobFieldIn (st : SysState) (jobId k : String) : Option JVal :=
  match storeGet st.store (jobKey jobId) with
  | none => none
  | some e => jget e.value k

/-- The status field of the given job's record in a state, when present. -/
def jobStatusIn (st : SysState) (jobId : String) : Option JVal :=
  jobFieldIn st jobId "status"

/-- Navigation into a nested object value. -/
def jvalGetOpt (v : Option JVal) (k : String) : Option JVal :=
  match v with
  | some (.obj o) => jget o k
  | _ => none

/-! ### Characterisation of one `processJob` run -/

theorem lookup_filter_self {β : Type} (s : List (String × β)) (k : String) :
    List.lookup k (s.filter (fun p => p.1 != k)) = none := by
  induction s with
  | nil => simp
  | cons hd tl ih =>
    by_cases hk : hd.1 = k
    · have hb : (hd.1 != k) = false := by simp [hk]
      simpa [List.filter, hb] using ih
    · have hb : (hd.1 != k) = true := by simp [hk]
      have hne : (k == hd.1) = false := by
        simp only [beq_eq_false_iff_ne, ne_eq]
        exact fun h => hk h.symm
      simpa [List.filter, hb, List.lookup, hne] using ih

theorem lookup_filter_none {α β : Type} [BEq α] [LawfulBEq α]
    (s : List (α × β)) (k : α) (f : α × β → Bool)
    (h : List.lookup k s = none) :
    List.lookup k (s.filter f) = none := by
  induction s with
  | nil => simp
  | cons hd tl ih =>
    by_cases hk : (k == hd.1) = true
    · simp [List.lookup, hk] at h
    · have hk' : (k == hd.1) = false := by
        cases hkb : (k == hd.1) with
        | true => exact absurd hkb hk
        | false => rfl
      simp only [List.lookup, hk'] at h
      cases hf : f hd with
      | true => simp [List.filter, hf, List.lookup, hk', ih h]
      | false => simp [List.filter, hf, ih h]

theorem fsGet_fsWrite_self (fs : FS) (p : String) (b : List Nat) :
    fsGet (fsWrite fs p b) p = some ⟨b, []⟩ := by
  simp [fsGet, fsWrite, List.lookup]

theorem fsGet_fsWrite_ne (fs : FS) (p p' : String) (b : List Nat)
    (h : p' ≠ p) :
    fsGet (fsWrite fs p b) p' = fsGet fs p' := by
  have hne : (p' == p) = false := by simp [h]
  simp [fsGet, fsWrite, List.lookup, hne, lookup_filter_ne fs p p' h]

theorem fsGet_unlink_self (fs : FS) (p : String) :
    fsGet (fsUnlink fs p) p = none := by
  simp [fsGet, fsUnlink, lookup_filter_self]

theorem fsExists_unlinkIfExists_self (fs : FS) (p : String) :
    fsExists (unlinkIfExists fs p) p = false := by
  unfold unlinkIfExists
  cases he : fsExists fs p with
  | true => simp [fsExists, fsGet_unlink_self]
  | false => simpa using he

theorem fsExists_unlinkIfExists_of_absent (fs : FS) (p q : String)
    (h : fsExists fs p = false) :
    fsExists (unlinkIfExists fs q) p = false := by
  unfold unlinkIfExists
  cases he : fsExists fs q with
  | true =>
    simp only [if_pos rfl]
    have : fsGet fs p = none := by
      simpa [fsExists, Option.isSome_iff_exists] using h
    simp [fsExists, fsUnlink, fsGet, lookup_filter_none _ _ _ this]
  | false => simpa using h

theorem fsExists_cleanup_original (jobId name : String) (fs : FS) :
    fsExists (cleanupTempFiles jobId name fs) (tempOriginalPath jobId) = false := by
  unfold cleanupTempFiles
  apply fsExists_unlinkIfExists_of_absent
  apply fsExists_unlinkIfExists_of_absent
  exact fsExists_unlinkIfExists_self fs (tempOriginalPath jobId)

theorem fsExists_cleanup_thumb (jobId name : String) (fs : FS) :
    fsExists (cleanupTempFiles jobId name fs) (tempThumbPath jobId name) = false := by
  unfold cleanupTempFiles
  apply fsExists_unlinkIfExists_of_absent
  exact fsExists_unlinkIfExists_self _ _

theorem fsExists_cleanup_full (jobId name : String) (fs : FS) :
    fsExists (cleanupTempFiles jobId name fs) (tempFullPath jobId name) = false := by
  unfold cleanupTempFiles
  exact fsExists_unlinkIfExists_self _ _

theorem tempThumbPath_ne_tempFullPath (j n : String) :
    tempThumbPath j n ≠ tempFullPath j n := by
  intro h
  have hl := congrArg String.length h
  simp only [tempThumbPath, tempFullPath, tempDirPath, String.length_append] at hl
  have h1 : ("_thumb.avif" : String).length = 11 := rfl
  have h2 : (".avif" : String).length = 5 := rfl
  rw [h1, h2] at hl
  omega

/-- State and record after the `processing` status update on a state whose
record for the job is `entry`. -/
def afterProcessing (t1 jobId : String) (entry : StoreEntry) (st : SysState) :
    SysState × Obj :=
  updateWritePhase t1 jobId entry.value [("status", .str "processing")] st

/-- The update object of the `completed` write, with its `results` value
abstracted. -/
def completedUpdatesOf (ptime : Nat) (res : JVal) : Obj :=
  [("status", .str "completed"), ("processingTime", .num ptime), ("results", res)]

theorem afterProcessing_get (t1 jobId : String) (entry : StoreEntry)
    (st : SysState) :
    storeGet (afterProcessing t1 jobId entry st).1.store (jobKey jobId) =
      some ⟨(afterProcessing t1 jobId entry st).2, 86400⟩ := by
  simp [afterProcessing, updateWritePhase, storeGet_set_self]

theorem innerPipeline_run (t2 : String) (ptime : Nat) (o : StageOutcomes)
    (jobId name : String) (inputBuffer : List Nat) (st1 : SysState) (fs : FS)
    (rec1 : Obj)
    (hst1 : storeGet st1.store (jobKey jobId) = some ⟨rec1, 86400⟩) :
    (∃ fs' e, innerPipeline true t2 ptime o jobId name inputBuffer st1 fs =
        (fs', .error e)) ∨
    (∃ fs' res,
      innerPipeline true t2 ptime o jobId name inputBuffer st1 fs =
        (cleanupTempFiles jobId name fs',
         .ok ((updateWritePhase t2 jobId rec1 (completedUpdatesOf ptime res) st1).1)) ∧
      o.thumbDur ≤ 30000 ∧ o.fullDur ≤ 60000 ∧
      o.thumbMetaDur ≤ 10000 ∧ o.fullMetaDur ≤ 10000) := by
  unfold innerPipeline
  cases hex : o.exifRead with
  | error e => exact Or.inl ⟨_, _, rfl⟩
  | ok om =>
  cases hjm : o.jimpRead with
  | error e => exact Or.inl ⟨_, _, rfl⟩
  | ok wh =>
  by_cases h30 : (30000 : Nat) < o.thumbDur
  · simp only [withTimeout, if_pos h30]
    exact Or.inl ⟨_, _, rfl⟩
  · simp only [withTimeout, if_neg h30]
    cases htc : o.thumbConv with
    | error e => exact Or.inl ⟨_, _, rfl⟩
    | ok tb =>
    by_cases h60 : (60000 : Nat) < o.fullDur
    · simp only [withTimeout, if_pos h60]
      exact Or.inl ⟨_, _, rfl⟩
    · simp only [withTimeout, if_neg h60]
      cases hfc : o.fullConv with
      | error e => exact Or.inl ⟨_, _, rfl⟩
      | ok fb =>
      by_cases h10a : (10000 : Nat) < o.thumbMetaDur
      · simp only [withTimeout, if_pos h10a]
        exact Or.inl ⟨_, _, rfl⟩
      · simp only [withTimeout, if_neg h10a]
        cases hmw : o.thumbMetaWrite with
        | error e => exact Or.inl ⟨_, _, rfl⟩
        | ok u =>
        by_cases h10b : (10000 : Nat) < o.fullMetaDur
        · simp only [withTimeout, if_pos h10b]
          exact Or.inl ⟨_, _, rfl⟩
        · simp only [withTimeout, if_neg h10b]
          cases hmw2 : o.fullMetaWrite with
          | error e => exact Or.inl ⟨_, _, rfl⟩
          | ok u2 =>
            -- the success leaf: compute the two final reads, the cleanup
            -- and the completed update
            have hTF := tempThumbPath_ne_tempFullPath jobId name
            have hFT : tempFullPath jobId name ≠ tempThumbPath jobId name :=
              fun h => hTF h.symm
            have hg3t : fsGet (fsWrite (fsWrite
                (fsWrite fs (tempOriginalPath jobId) inputBuffer)
                (tempThumbPath jobId name) tb)
                (tempFullPath jobId name) fb) (tempThumbPath jobId name) =
                some ⟨tb, []⟩ := by
              rw [fsGet_fsWrite_ne _ _ _ _ hTF, fsGet_fsWrite_self]
            have hg3f : fsGet (fsWrite (fsWrite
                (fsWrite fs (tempOriginalPath jobId) inputBuffer)
                (tempThumbPath jobId name) tb)
                (tempFullPath jobId name) fb) (tempFullPath jobId name) =
                some ⟨fb, []⟩ := fsGet_fsWrite_self _ _ _
            simp only [exifWriteFile, hg3t]
            have hg4f : fsGet ((tempThumbPath jobId name,
                ⟨tb, spread ([] : Obj) (buildMetadataToPreserve wh.1 wh.2 om)⟩) ::
                List.filter (fun q => q.1 != tempThumbPath jobId name)
                  (fsWrite (fsWrite
                    (fsWrite fs (tempOriginalPath jobId) inputBuffer)
                    (tempThumbPath jobId name) tb)
                    (tempFullPath jobId name) fb)) (tempFullPath jobId name) =
                some ⟨fb, []⟩ := by
              have hne : (tempFullPath jobId name == tempThumbPath jobId name) = false := by
                simp [hFT]
              simp only [fsGet, List.lookup, hne]
              rw [lookup_filter_ne _ _ _ hFT]
              exact hg3f
            simp only [hg4f]
            have hg5t : fsGet ((tempFullPath jobId name,
                ⟨fb, spread ([] : Obj) (buildMetadataToPreserve wh.1 wh.2 om)⟩) ::
                List.filter (fun q => q.1 != tempFullPath jobId name)
                  ((tempThumbPath jobId name,
                    ⟨tb, spread ([] : Obj) (buildMetadataToPreserve wh.1 wh.2 om)⟩) ::
                   List.filter (fun q => q.1 != tempThumbPath jobId name)
                     (fsWrite (fsWrite
                       (fsWrite fs (tempOriginalPath jobId) inputBuffer)
                       (tempThumbPath jobId name) tb)
                       (tempFullPath jobId name) fb)))
                (tempThumbPath jobId name) =
                some ⟨tb, spread ([] : Obj) (buildMetadataToPreserve wh.1 wh.2 om)⟩ := by
              have hne : (tempThumbPath jobId name == tempFullPath jobId name) = false := by
                simp [hTF]
              have hself : (tempThumbPath jobId name == tempThumbPath jobId name) = true := by
                simp
              simp only [fsGet, List.lookup, hne]
              rw [lookup_filter_ne _ _ _ hTF]
              simp only [List.lookup, hself]
            have hself2 : fsGet ((tempFullPath jobId name,
                ⟨fb, spread ([] : Obj) (buildMetadataToPreserve wh.1 wh.2 om)⟩) ::
                List.filter (fun q => q.1 != tempFullPath jobId name)
                  ((tempThumbPath jobId name,
                    ⟨tb, spread ([] : Obj) (buildMetadataToPreserve wh.1 wh.2 om)⟩) ::
                   List.filter (fun q => q.1 != tempThumbPath jobId name)
                     (fsWrite (fsWrite
                       (fsWrite fs (tempOriginalPath jobId) inputBuffer)
                       (tempThumbPath jobId name) tb)
                       (tempFullPath jobId name) fb)))
                (tempFullPath jobId name) =
                some ⟨fb, spread ([] : Obj) (buildMetadataToPreserve wh.1 wh.2 om)⟩ := by
              simp [fsGet, List.lookup]
            rw [hg5t, hself2]
            dsimp only
            rw [updateJobStatus_ok _ _ _ _ _ hst1]
            exact Or.inr ⟨_, _, rfl, by omega, by omega, by omega, by omega⟩

theorem updateJobStatus_processing (st : SysState) (jobId t1 : String)
    (entry : StoreEntry)
    (hst : storeGet st.store (jobKey jobId) = some entry) :
    updateJobStatus true t1 jobId [("status", .str "processing")] st =
      .ok (afterProcessing t1 jobId entry st) := by
  rw [updateJobStatus_ok _ _ _ _ _ hst]
  rfl

theorem processJobAux_run (t1 t2 : String) (ptime : Nat) (o : StageOutcomes)
    (st : SysState) (fs : FS) (job : Obj) (jobId : String) (entry : StoreEntry)
    (hst : storeGet st.store (jobKey jobId) = some entry) :
    ∃ stF fsF,
      processJobAux true t1 t2 ptime o st fs job jobId =
        ⟨stF, fsF, .ok (), [(afterProcessing t1 jobId entry st).1, stF]⟩ ∧
      (fsF = fs ∨ ∃ name fs', getOriginalName job = .ok name ∧
          fsF = cleanupTempFiles jobId name fs') ∧
      ((∃ res,
          stF = (updateWritePhase t2 jobId (afterProcessing t1 jobId entry st).2
            (completedUpdatesOf ptime res) (afterProcessing t1 jobId entry st).1).1 ∧
          o.thumbDur ≤ 30000 ∧ o.fullDur ≤ 60000 ∧ o.thumbMetaDur ≤ 10000 ∧
          o.fullMetaDur ≤ 10000) ∨
       (∃ e,
          stF = (updateWritePhase t2 jobId (afterProcessing t1 jobId entry st).2
            (failedUpdates e ptime) (afterProcessing t1 jobId entry st).1).1)) := by
  have hst1 := afterProcessing_get t1 jobId entry st
  have hfail : ∀ (fsX : FS) (tr : List SysState) (e : String),
      outerFail true t2 ptime jobId (afterProcessing t1 jobId entry st).1 fsX tr e =
        ⟨(updateWritePhase t2 jobId (afterProcessing t1 jobId entry st).2
            (failedUpdates e ptime) (afterProcessing t1 jobId entry st).1).1,
          fsX, .ok (),
          tr ++ [(updateWritePhase t2 jobId (afterProcessing t1 jobId entry st).2
            (failedUpdates e ptime) (afterProcessing t1 jobId entry st).1).1]⟩ := by
    intro fsX tr e
    unfold outerFail
    rw [updateJobStatus_ok _ _ _ _ _ hst1]
  unfold processJobAux
  rw [updateJobStatus_processing st jobId t1 entry hst]
  dsimp only
  cases hib : getImageBuffer job with
  | error e =>
    dsimp only
    rw [hfail]
    exact ⟨_, _, rfl, Or.inl rfl, Or.inr ⟨e, rfl⟩⟩
  | ok inputBuffer =>
  cases hon : getOriginalName job with
  | error e =>
    dsimp only
    rw [hfail]
    exact ⟨_, _, rfl, Or.inl rfl, Or.inr ⟨e, rfl⟩⟩
  | ok name =>
    dsimp only
    rcases innerPipeline_run t2 ptime o jobId name inputBuffer
        (afterProcessing t1 jobId entry st).1 fs
        (afterProcessing t1 jobId entry st).2 hst1 with
      ⟨fs', e, heq⟩ | ⟨fs', res, hveq, hb1, hb2, hb3, hb4⟩
    · rw [heq]
      dsimp only
      rw [hfail]
      exact ⟨_, _, rfl, Or.inr ⟨name, fs', rfl, rfl⟩, Or.inr ⟨e, rfl⟩⟩
    · rw [hveq]
      dsimp only
      exact ⟨_, _, rfl, Or.inr ⟨name, fs', rfl, rfl⟩,
        Or.inl ⟨res, rfl, hb1, hb2, hb3, hb4⟩⟩

theorem processJob_run (t1 t2 : String) (ptime : Nat) (o : StageOutcomes)
    (st : SysState) (fs : FS) (job : Obj) (jobId : String) (entry : StoreEntry)
    (hid : jget job "id" = some (.str jobId))
    (hst : storeGet st.store (jobKey jobId) = some entry) :
    ∃ stF fsF,
      processJob true t1 t2 ptime o st fs job =
        ⟨stF, fsF, .ok (), [(afterProcessing t1 jobId entry st).1, stF]⟩ ∧
      (fsF = fs ∨ ∃ name fs', getOriginalName job = .ok name ∧
          fsF = cleanupTempFiles jobId name fs') ∧
      ((∃ res,
          stF = (updateWritePhase t2 jobId (afterProcessing t1 jobId entry st).2
            (completedUpdatesOf ptime res) (afterProcessing t1 jobId entry st).1).1 ∧
          o.thumbDur ≤ 30000 ∧ o.fullDur ≤ 60000 ∧ o.thumbMetaDur ≤ 10000 ∧
          o.fullMetaDur ≤ 10000) ∨
       (∃ e,
          stF = (updateWritePhase t2 jobId (afterProcessing t1 jobId entry st).2
            (failedUpdates e ptime) (afterProcessing t1 jobId entry st).1).1)) := by
  have hj : jsToString (jget job "id") = jobId := by rw [hid]; rfl
  unfold processJob
  rw [hj]
  exact processJobAux_run t1 t2 ptime o st fs job jobId entry hst

/-! ### Field computations on the updated records -/

theorem storeGet_writePhase (now jobId : String) (rec upd : Obj)
    (st : SysState) :
    storeGet ((updateWritePhase now jobId rec upd st).1).store (jobKey jobId) =
      some ⟨(updateWritePhase now jobId rec upd st).2, 86400⟩ := by
  simp [updateWritePhase, storeGet_set_self]

theorem jget_writePhase (now jobId : String) (rec upd : Obj) (st : SysState)
    (k : String) (hk : k ≠ "updatedAt") :
    jget (updateWritePhase now jobId rec upd st).2 k =
      match jget upd k with
      | some v => some v
      | none => jget rec k :=
  jget_updatedJob rec upd now k hk

theorem jobFieldIn_writePhase (now jobId : String) (rec upd : Obj)
    (st : SysState) (k : String) (hk : k ≠ "updatedAt") :
    jobFieldIn ((updateWritePhase now jobId rec upd st).1) jobId k =
      match jget upd k with
      | some v => some v
      | none => jget rec k := by
  unfold jobFieldIn
  rw [storeGet_writePhase]
  exact jget_writePhase now jobId rec upd st k hk

theorem jobFieldIn_afterProcessing (t1 jobId : String) (entry : StoreEntry)
    (st : SysState) (k : String) (hk : k ≠ "updatedAt") :
    jobFieldIn ((afterProcessing t1 jobId entry st).1) jobId k =
      match jget [(("status" : String), JVal.str "processing")] k with
      | some v => some v
      | none => jget entry.value k :=
  jobFieldIn_writePhase t1 jobId entry.value _ st k hk

/-- The record built by `createJob` for the given inputs. -/
def createRecord (t0 jobId : String) (jobData : Obj) : Obj :=
  spread (createDefaults t0 jobId) jobData

/-- The state after a successful `createJob` for the given inputs. -/
def createState (t0 jobId : String) (jobData : Obj) (st : SysState) : SysState :=
  { st with
    store := storeSet st.store (jobKey jobId) ⟨createRecord t0 jobId jobData, 86400⟩,
    queue := lpush ⟨jobId⟩ st.queue }

theorem createJob_eq (t0 jobId : String) (jobData : Obj) (st : SysState) :
    createJob true none none t0 jobId jobData st =
      .ok (createState t0 jobId jobData st, createRecord t0 jobId jobData) := rfl

theorem jget_createRecord_default (t0 jobId : String) (jobData : Obj)
    (k : String) (hk : jget jobData k = none) :
    jget (createRecord t0 jobId jobData) k = jget (createDefaults t0 jobId) k := by
  unfold createRecord
  rw [jget_spread, hk]

theorem createThenProcess_run (t0 t1 t2 : String) (ptime : Nat)
    (jobId : String) (jobData : Obj) (o : StageOutcomes) (st : SysState)
    (fs : FS) (hid : jget jobData "id" = none) :
    ∃ stF fsF,
      createThenProcess t0 t1 t2 ptime jobId jobData o st fs =
        some ([createState t0 jobId jobData st,
               (afterProcessing t1 jobId ⟨createRecord t0 jobId jobData, 86400⟩
                 (createState t0 jobId jobData st)).1,
               stF], fsF) ∧
      (fsF = fs ∨ ∃ name fs',
          getOriginalName (createRecord t0 jobId jobData) = .ok name ∧
          fsF = cleanupTempFiles jobId name fs') ∧
      ((∃ res,
          stF = (updateWritePhase t2 jobId
            (afterProcessing t1 jobId ⟨createRecord t0 jobId jobData, 86400⟩
              (createState t0 jobId jobData st)).2
            (completedUpdatesOf ptime res)
            (afterProcessing t1 jobId ⟨createRecord t0 jobId jobData, 86400⟩
              (createState t0 jobId jobData st)).1).1 ∧
          o.thumbDur ≤ 30000 ∧ o.fullDur ≤ 60000 ∧ o.thumbMetaDur ≤ 10000 ∧
          o.fullMetaDur ≤ 10000) ∨
       (∃ e,
          stF = (updateWritePhase t2 jobId
            (afterProcessing t1 jobId ⟨createRecord t0 jobId jobData, 86400⟩
              (createState t0 jobId jobData st)).2
            (failedUpdates e ptime)
            (afterProcessing t1 jobId ⟨createRecord t0 jobId jobData, 86400⟩
              (createState t0 jobId jobData st)).1).1)) := by
  have hid' : jget (createRecord t0 jobId jobData) "id" = some (.str jobId) := by
    rw [jget_createRecord_default t0 jobId jobData "id" hid]
    rfl
  have hst' : storeGet (createState t0 jobId jobData st).store (jobKey jobId) =
      some ⟨createRecord t0 jobId jobData, 86400⟩ := storeGet_set_self _ _ _
  obtain ⟨stF, fsF, heq, hfs, hcase⟩ :=
    processJob_run t1 t2 ptime o (createState t0 jobId jobData st) fs
      (createRecord t0 jobId jobData) jobId
      ⟨createRecord t0 jobId jobData, 86400⟩ hid' hst'
  refine ⟨stF, fsF, ?_, hfs, hcase⟩
  unfold createThenProcess
  rw [createJob_eq]
  dsimp only
  rw [heq]

theorem unfold_jobStatusIn (st : SysState) (jobId : String) :
    jobStatusIn st jobId = jobFieldIn st jobId "status" := rfl

theorem jobFieldIn_createState (t0 jobId : String) (jobData : Obj)
    (st : SysState) (k : String) :
    jobFieldIn (createState t0 jobId jobData st) jobId k =
      jget (createRecord t0 jobId jobData) k := by
  simp [jobFieldIn, createState, storeGet_set_self]

theorem jobStatusIn_afterProcessing (t1 jobId : String) (entry : StoreEntry)
    (st : SysState) :
    jobStatusIn ((afterProcessing t1 jobId entry st).1) jobId =
      some (.str "processing") := by
  unfold jobStatusIn
  rw [jobFieldIn_afterProcessing _ _ _ _ _ (by decide)]
  rfl

theorem jobFieldIn_afterProcessing_results (t1 jobId : String)
    (entry : StoreEntry) (st : SysState) :
    jobFieldIn ((afterProcessing t1 jobId entry st).1) jobId "results" =
      jget entry.value "results" := by
  rw [jobFieldIn_afterProcessing _ _ _ _ _ (by decide)]
  rfl

theorem jobFieldIn_afterProcessing_error (t1 jobId : String)
    (entry : StoreEntry) (st : SysState) :
    jobFieldIn ((afterProcessing t1 jobId entry st).1) jobId "error" =
      jget entry.value "error" := by
  rw [jobFieldIn_afterProcessing _ _ _ _ _ (by decide)]
  rfl

theorem jget_afterProcessing_results (t1 jobId : String) (entry : StoreEntry)
    (st : SysState) :
    jget (afterProcessing t1 jobId entry st).2 "results" =
      jget entry.value "results" := by
  unfold afterProcessing
  rw [jget_writePhase t1 jobId entry.value _ st "results" (by decide)]
  rfl

theorem jget_afterProcessing_error (t1 jobId : String) (entry : StoreEntry)
    (st : SysState) :
    jget (afterProcessing t1 jobId entry st).2 "error" =
      jget entry.value "error" := by
  unfold afterProcessing
  rw [jget_writePhase t1 jobId entry.value _ st "error" (by decide)]
  rfl

theorem jobStatusIn_completedWrite (t2 jobId : String) (rec : Obj)
    (st : SysState) (ptime : Nat) (res : JVal) :
    jobStatusIn ((updateWritePhase t2 jobId rec (completedUpdatesOf ptime res) st).1)
      jobId = some (.str "completed") := by
  unfold jobStatusIn
  rw [jobFieldIn_writePhase _ _ _ _ _ _ (by decide)]
  rfl

theorem jobFieldIn_completedWrite_results (t2 jobId : String) (rec : Obj)
    (st : SysState) (ptime : Nat) (res : JVal) :
    jobFieldIn ((updateWritePhase t2 jobId rec (completedUpdatesOf ptime res) st).1)
      jobId "results" = some res := by
  rw [jobFieldIn_writePhase _ _ _ _ _ _ (by decide)]
  rfl

theorem jobFieldIn_completedWrite_error (t2 jobId : String) (rec : Obj)
    (st : SysState) (ptime : Nat) (res : JVal) :
    jobFieldIn ((updateWritePhase t2 jobId rec (completedUpdatesOf ptime res) st).1)
      jobId "error" = jget rec "error" := by
  rw [jobFieldIn_writePhase _ _ _ _ _ _ (by decide)]
  rfl

theorem jobStatusIn_failedWrite (t2 jobId : String) (rec : Obj)
    (st : SysState) (e : String) (ptime : Nat) :
    jobStatusIn ((updateWritePhase t2 jobId rec (failedUpdates e ptime) st).1)
      jobId = some (.str "failed") := by
  unfold jobStatusIn
  rw [jobFieldIn_writePhase _ _ _ _ _ _ (by decide)]
  rfl

theorem jobFieldIn_failedWrite_error (t2 jobId : String) (rec : Obj)
    (st : SysState) (e : String) (ptime : Nat) :
    jobFieldIn ((updateWritePhase t2 jobId rec (failedUpdates e ptime) st).1)
      jobId "error" = some (.str e) := by
  rw [jobFieldIn_writePhase _ _ _ _ _ _ (by decide)]
  rfl

theorem jobFieldIn_failedWrite_results (t2 jobId : String) (rec : Obj)
    (st : SysState) (e : String) (ptime : Nat) :
    jobFieldIn ((updateWritePhase t2 jobId rec (failedUpdates e ptime) st).1)
      jobId "results" = jget rec "results" := by
  rw [jobFieldIn_writePhase _ _ _ _ _ _ (by decide)]
  rfl

/-! ### Claim C1 -/

/-- A terminal (`completed`) record, as stored by the registry. -/
def c1Record : Obj :=
  [("id", .str "j1"), ("status", .str "completed"), ("results", .obj []),
   ("createdAt", .str "T0"), ("updatedAt", .str "T0")]

def c1State : SysState := ⟨[(jobKey "j1", ⟨c1Record, 86400⟩)], []⟩

/-- C1, counterexample: the Job Registry's update operation performs a
transition out of the terminal state `completed` when a caller passes
`status: queued` — `updateJobStatus` has no terminal-state guard, so the
claim that the update operation never transitions out of a terminal state
is false on the code. -/
theorem c1_update_escapes_terminal :
    jobStatusIn c1State "j1" = some (.str "completed") ∧
    ∃ st' j',
      updateJobStatus true "T1" "j1" [("status", .str "queued")] c1State =
        .ok (st', j') ∧
      jget j' "status" = some (.str "queued") ∧
      jobStatusIn st' "j1" = some (.str "queued") :=
  ⟨rfl, _, _, rfl, rfl, rfl⟩

/-- C1 (amended): the registry's update applies any caller-supplied status
without checking the current one, but along the system's actual control
flow — producer `createJob` then worker `processJob` — the job's observable
status sequence is exactly `queued`, `processing`, then one terminal state,
and the terminal state is written only once. -/
theorem c1_observable_status_sequence (t0 t1 t2 : String) (ptime : Nat)
    (jobId : String) (jobData : Obj) (o : StageOutcomes) (st : SysState)
    (fs : FS) (hid : jget jobData "id" = none)
    (hstat : jget jobData "status" = none) :
    ∃ states fsF,
      createThenProcess t0 t1 t2 ptime jobId jobData o st fs =
        some (states, fsF) ∧
      (states.map (fun s => jobStatusIn s jobId) =
          [some (.str "queued"), some (.str "processing"), some (.str "completed")] ∨
       states.map (fun s => jobStatusIn s jobId) =
          [some (.str "queued"), some (.str "processing"), some (.str "failed")]) := by
  obtain ⟨stF, fsF, heq, hfs, hcase⟩ :=
    createThenProcess_run t0 t1 t2 ptime jobId jobData o st fs hid
  refine ⟨_, fsF, heq, ?_⟩
  have h0 : jobStatusIn (createState t0 jobId jobData st) jobId =
      some (.str "queued") := by
    unfold jobStatusIn
    rw [jobFieldIn_createState, jget_createRecord_default _ _ _ _ hstat]
    rfl
  rcases hcase with ⟨res, hstF, _⟩ | ⟨e, hstF⟩
  · subst hstF
    left
    simp only [List.map_cons, List.map_nil]
    rw [h0, jobStatusIn_afterProcessing, jobStatusIn_completedWrite]
  · subst hstF
    right
    simp only [List.map_cons, List.map_nil]
    rw [h0, jobStatusIn_afterProcessing, jobStatusIn_failedWrite]

/-- C1 witness: a concrete run in which the amended observable-status
theorem applies. -/
theorem c1_observable_status_sequence_witness :
    ∃ states fsF,
      createThenProcess "T0" "T1" "T2" 7 "j1"
          [("originalName", .str "a.jpg"), ("imageData", .str "xy")]
          ⟨5, .ok [], 5, .ok (100, 50), 10, .ok [1], 20, .ok [2], 3, .ok (),
           3, .ok ()⟩ ⟨[], []⟩ [] = some (states, fsF) ∧
      (states.map (fun s => jobStatusIn s "j1") =
          [some (.str "queued"), some (.str "processing"), some (.str "completed")] ∨
       states.map (fun s => jobStatusIn s "j1") =
          [some (.str "queued"), some (.str "processing"), some (.str "failed")]) :=
  c1_observable_status_sequence "T0" "T1" "T2" 7 "j1" _ _ ⟨[], []⟩ [] rfl rfl

/-! ### Claim C2 -/

/-- C2: at every observable point of a job's life — after creation, after
the `processing` update, and after the terminal update — the record has
`results` exactly when its status is `completed` and `error` exactly when
its status is `failed`, for any producer payload that does not itself
carry those reserved fields (as the server's call site never does). -/
theorem c2_results_error_mutual_exclusion (t0 t1 t2 : String) (ptime : Nat)
    (jobId : String) (jobData : Obj) (o : StageOutcomes) (st : SysState)
    (fs : FS) (hid : jget jobData "id" = none)
    (hstat : jget jobData "status" = none)
    (hres : jget jobData "results" = none)
    (herr : jget jobData "error" = none) :
    ∃ states fsF,
      createThenProcess t0 t1 t2 ptime jobId jobData o st fs =
        some (states, fsF) ∧
      ∀ s ∈ states,
        ((jobFieldIn s jobId "results").isSome ↔
          jobStatusIn s jobId = some (.str "completed")) ∧
        ((jobFieldIn s jobId "error").isSome ↔
          jobStatusIn s jobId = some (.str "failed")) := by
  obtain ⟨stF, fsF, heq, hfs, hcase⟩ :=
    createThenProcess_run t0 t1 t2 ptime jobId jobData o st fs hid
  refine ⟨_, fsF, heq, ?_⟩
  have hrecres : jget (createRecord t0 jobId jobData) "results" = none := by
    rw [jget_createRecord_default _ _ _ _ hres]; rfl
  have hrecerr : jget (createRecord t0 jobId jobData) "error" = none := by
    rw [jget_createRecord_default _ _ _ _ herr]; rfl
  have hrecstat : jget (createRecord t0 jobId jobData) "status" =
      some (.str "queued") := by
    rw [jget_createRecord_default _ _ _ _ hstat]; rfl
  intro s hs
  simp only [List.mem_cons, List.not_mem_nil, or_false] at hs
  rcases hs with rfl | rfl | rfl
  · constructor
    · rw [unfold_jobStatusIn, jobFieldIn_createState, jobFieldIn_createState,
        hrecres, hrecstat]
      simp
    · rw [unfold_jobStatusIn, jobFieldIn_createState, jobFieldIn_createState,
        hrecerr, hrecstat]
      simp
  · constructor
    · rw [jobStatusIn_afterProcessing, jobFieldIn_afterProcessing_results]
      simp only [hrecres]
      simp
    · rw [jobStatusIn_afterProcessing, jobFieldIn_afterProcessing_error]
      simp only [hrecerr]
      simp
  · rcases hcase with ⟨res, hstF, _⟩ | ⟨e, hstF⟩
    · subst hstF
      constructor
      · rw [jobStatusIn_completedWrite, jobFieldIn_completedWrite_results]
        simp
      · rw [jobStatusIn_completedWrite, jobFieldIn_completedWrite_error,
          jget_afterProcessing_error, hrecerr]
        simp
    · subst hstF
      constructor
      · rw [jobStatusIn_failedWrite, jobFieldIn_failedWrite_results,
          jget_afterProcessing_results, hrecres]
        simp
      · rw [jobStatusIn_failedWrite, jobFieldIn_failedWrite_error]
        simp

/-- C2 witness: a concrete run to which the mutual-exclusion theorem
applies. -/
theorem c2_results_error_mutual_exclusion_witness :
    ∃ states fsF,
      createThenProcess "T0" "T1" "T2" 7 "j1"
          [("originalName", .str "a.jpg"), ("imageData", .str "xy")]
          ⟨5, .error "boom", 5, .ok (100, 50), 10, .ok [1], 20, .ok [2],
           3, .ok (), 3, .ok ()⟩ ⟨[], []⟩ [] = some (states, fsF) ∧
      ∀ s ∈ states,
        ((jobFieldIn s "j1" "results").isSome ↔
          jobStatusIn s "j1" = some (.str "completed")) ∧
        ((jobFieldIn s "j1" "error").isSome ↔
          jobStatusIn s "j1" = some (.str "failed")) :=
  c2_results_error_mutual_exclusion "T0" "T1" "T2" 7 "j1" _ _ ⟨[], []⟩ []
    rfl rfl rfl rfl

/-! ### Claim C10 -/

/-- C10: `createJob` spreads the caller payload over the freshly built
defaults, so each of the reserved keys `id`, `status`, `createdAt`,
`updatedAt` gets its default exactly when the payload omits it and the
caller's value otherwise, in the returned record, which is also the record
stored under the new key. -/
theorem c10_createJob_spread_semantics (now jobId : String) (jobData : Obj)
    (st : SysState) :
    ∃ st' job,
      createJob true none none now jobId jobData st = .ok (st', job) ∧
      storeGet st'.store (jobKey jobId) = some ⟨job, 86400⟩ ∧
      jget job "id" =
        (match jget jobData "id" with
         | some v => some v
         | none => some (.str jobId)) ∧
      jget job "status" =
        (match jget jobData "status" with
         | some v => some v
         | none => some (.str "queued")) ∧
      jget job "createdAt" =
        (match jget jobData "createdAt" with
         | some v => some v
         | none => some (.str now)) ∧
      jget job "updatedAt" =
        (match jget jobData "updatedAt" with
         | some v => some v
         | none => some (.str now)) := by
  refine ⟨_, _, createJob_eq now jobId jobData st, storeGet_set_self _ _ _,
    ?_, ?_, ?_, ?_⟩
  · unfold createRecord
    rw [jget_spread]
    cases jget jobData "id" <;> rfl
  · unfold createRecord
    rw [jget_spread]
    cases jget jobData "status" <;> rfl
  · unfold createRecord
    rw [jget_spread]
    cases jget jobData "createdAt" <;> rfl
  · unfold createRecord
    rw [jget_spread]
    cases jget jobData "updatedAt" <;> rfl

/-! ### Claim C6 -/

def c6Record : Obj := [("id", .str "j1"), ("status", .str "queued")]

def c6State : SysState := ⟨[(jobKey "j1", ⟨c6Record, 86400⟩)], []⟩

/-- C6 counterexample: `updateJobStatus` is its get phase followed by its
write phase; when the record is deleted between the two, the write phase
still succeeds and re-creates the record, instead of the whole update
failing with JobNotFound. -/
theorem c6_delete_between_get_and_write :
    updateJobStatus true "T1" "j1" [("status", .str "processing")] c6State =
      .ok (updateWritePhase "T1" "j1" c6Record
        [("status", .str "processing")] c6State) ∧
    updateGetPhase true "j1" c6State = .ok c6Record ∧
    deleteJob true "j1" c6State = .ok ⟨[], []⟩ ∧
    storeGet (SysState.store ⟨[], []⟩) (jobKey "j1") = none ∧
    (storeGet (updateWritePhase "T1" "j1" c6Record
        [("status", .str "processing")] ⟨[], []⟩).1.store
      (jobKey "j1")).isSome = true :=
  ⟨rfl, rfl, rfl, rfl, rfl⟩

/-- C6 (amended): for a record absent at the internal get, update fails
with the JobNotFound error; for a present record it merges exactly the
given fields over the current ones, overwrites the update timestamp, and
stores the result with the full 24-hour TTL again; but a record deleted
between the internal get and the write is re-created by the write rather
than producing JobNotFound. -/
theorem c6_update_merge_semantics (now jobId : String) (updates : Obj)
    (st : SysState) :
    (storeGet st.store (jobKey jobId) = none →
      updateJobStatus true now jobId updates st =
        .error ("Failed to update job status: Job " ++ jobId ++ " not found")) ∧
    (∀ entry, storeGet st.store (jobKey jobId) = some entry →
      updateJobStatus true now jobId updates st =
        .ok ((updateWritePhase now jobId entry.value updates st).1,
             (updateWritePhase now jobId entry.value updates st).2) ∧
      storeGet (updateWritePhase now jobId entry.value updates st).1.store
          (jobKey jobId) =
        some ⟨(updateWritePhase now jobId entry.value updates st).2, 86400⟩ ∧
      jget (updateWritePhase now jobId entry.value updates st).2 "updatedAt" =
        some (.str now) ∧
      ∀ k, k ≠ "updatedAt" →
        jget (updateWritePhase now jobId entry.value updates st).2 k =
          match jget updates k with
          | some v => some v
          | none => jget entry.value k) := by
  constructor
  · intro h
    exact updateJobStatus_absent st jobId now updates h
  · intro entry h
    refine ⟨updateJobStatus_ok st jobId now updates entry h,
      storeGet_writePhase now jobId entry.value updates st,
      jget_updatedJob_updatedAt entry.value updates now, ?_⟩
    intro k hk
    exact jget_updatedJob entry.value updates now k hk

/-- C6 witness: the amended update semantics applied at concrete inputs,
once with an absent record and once with a present one. -/
theorem c6_update_merge_semantics_witness :
    (updateJobStatus true "T1" "j1" [("status", .str "processing")]
        ⟨[], []⟩ =
      .error ("Failed to update job status: Job " ++ "j1" ++ " not found")) ∧
    (updateJobStatus true "T1" "j1" [("status", .str "processing")] c6State =
        .ok ((updateWritePhase "T1" "j1" c6Record
              [("status", .str "processing")] c6State).1,
             (updateWritePhase "T1" "j1" c6Record
              [("status", .str "processing")] c6State).2) ∧
      storeGet (updateWritePhase "T1" "j1" c6Record
          [("status", .str "processing")] c6State).1.store (jobKey "j1") =
        some ⟨(updateWritePhase "T1" "j1" c6Record
          [("status", .str "processing")] c6State).2, 86400⟩ ∧
      jget (updateWritePhase "T1" "j1" c6Record
          [("status", .str "processing")] c6State).2 "updatedAt" =
        some (.str "T1") ∧
      ∀ k, k ≠ "updatedAt" →
        jget (updateWritePhase "T1" "j1" c6Record
            [("status", .str "processing")] c6State).2 k =
          match jget [(("status" : String), JVal.str "processing")] k with
          | some v => some v
          | none => jget c6Record k) :=
  ⟨(c6_update_merge_semantics "T1" "j1" [("status", .str "processing")]
      ⟨[], []⟩).1 rfl,
   (c6_update_merge_semantics "T1" "j1" [("status", .str "processing")]
      c6State).2 ⟨c6Record, 86400⟩ rfl⟩

/-! ### Claim C7 -/

/-- C7: in `createJob` the record write strictly precedes the queue push:
in every intermediate shared state of the operation, if the queue holds an
envelope for the new job, the job's record is already in the store — a
queue entry never exists before its record. -/
theorem c7_record_stored_before_push (connected : Bool)
    (setErr pushErr : Option String) (now jobId : String) (jobData : Obj)
    (st : SysState) (hfresh : ∀ e ∈ st.queue, e.jobId ≠ jobId) :
    ∀ s ∈ createJobStates connected setErr pushErr now jobId jobData st,
      (∃ e ∈ s.queue, e.jobId = jobId) →
      (storeGet s.store (jobKey jobId)).isSome = true := by
  intro s hs hq
  unfold createJobStates at hs
  cases connected with
  | false =>
    rw [if_pos rfl] at hs
    simp only [List.mem_singleton] at hs
    subst hs
    obtain ⟨e, he, heq⟩ := hq
    exact absurd heq (hfresh e he)
  | true =>
    simp only [if_neg (by simp : ¬ true = false)] at hs
    cases setErr with
    | some e0 =>
      simp only [List.mem_singleton] at hs
      subst hs
      obtain ⟨e, he, heq⟩ := hq
      exact absurd heq (hfresh e he)
    | none =>
      cases pushErr with
      | some e0 =>
        simp only [List.mem_cons, List.not_mem_nil, or_false] at hs
        rcases hs with rfl | rfl
        · obtain ⟨e, he, heq⟩ := hq
          exact absurd heq (hfresh e he)
        · simp [storeGet_set_self]
      | none =>
        simp only [List.mem_cons, List.not_mem_nil, or_false] at hs
        rcases hs with rfl | rfl | rfl
        · obtain ⟨e, he, heq⟩ := hq
          exact absurd heq (hfresh e he)
        · simp [storeGet_set_self]
        · simp [storeGet_set_self]

/-- C7 witness: in the final state of a concrete `createJob`, the queue
holds the new envelope and the record is present. -/
theorem c7_record_stored_before_push_witness :
    (storeGet (createState "T0" "j1" [] ⟨[], []⟩).store
      (jobKey "j1")).isSome = true :=
  c7_record_stored_before_push true none none "T0" "j1" [] ⟨[], []⟩
    (by intro e he; cases he)
    (createState "T0" "j1" [] ⟨[], []⟩)
    (List.Mem.tail _ (List.Mem.tail _ (List.Mem.head _)))
    ⟨⟨"j1"⟩, List.Mem.head _, rfl⟩

/-! ### Claim C3 -/

/-- C3: the queue built on `LPUSH`/`BRPOP` is FIFO — draining a queue
filled by a batch of pushes returns the entries in arrival order — and at
the system level an entry pushed by `createJob` onto an empty queue is
returned, as its full record, by an immediately following `getNextJob`. -/
theorem c3_queue_fifo :
    (∀ es : List QueueEntry, drainAll (lpushAll es []) = es) ∧
    (∀ (t0 jobId : String) (jobData : Obj) (st : SysState),
      st.queue = [] →
      ∃ st' job,
        createJob true none none t0 jobId jobData st = .ok (st', job) ∧
        getNextJob true st' = .ok ({ st' with queue := [] }, some job)) := by
  constructor
  · intro es
    rw [lpushAll_eq, List.append_nil, drainAll_eq_reverse, List.reverse_reverse]
  · intro t0 jobId jobData st hq
    refine ⟨createState t0 jobId jobData st, createRecord t0 jobId jobData,
      createJob_eq t0 jobId jobData st, ?_⟩
    have hqueue : (createState t0 jobId jobData st).queue =
        [⟨jobId⟩] := by
      simp [createState, lpush, hq]
    have hbr : brpop [(⟨jobId⟩ : QueueEntry)] = some (⟨jobId⟩, []) := rfl
    have hstore : storeGet (createState t0 jobId jobData st).store
        (jobKey jobId) = some ⟨createRecord t0 jobId jobData, 86400⟩ :=
      storeGet_set_self _ _ _
    unfold getNextJob
    rw [hqueue, hbr]
    simp only [if_neg (by simp : ¬ true = false), getJobStatus, hstore]
    rfl

/-- C3 witness: the FIFO drain and the push-pop round trip at concrete
inputs. -/
theorem c3_queue_fifo_witness :
    drainAll (lpushAll [⟨"a"⟩, ⟨"b"⟩] []) = [⟨"a"⟩, ⟨"b"⟩] ∧
    ∃ st' job,
      createJob true none none "T0" "j1"
          [("originalName", .str "a.jpg")] ⟨[], []⟩ = .ok (st', job) ∧
      getNextJob true st' = .ok ({ st' with queue := [] }, some job) :=
  ⟨c3_queue_fifo.1 [⟨"a"⟩, ⟨"b"⟩],
   c3_queue_fifo.2 "T0" "j1" [("originalName", .str "a.jpg")] ⟨[], []⟩ rfl⟩

/-! ### Claim C4 -/

/-- Outcomes of a run whose metadata extraction takes one hour but
succeeds; the four wrapped calls are fast. -/
def c4SlowExifOutcomes : StageOutcomes :=
  ⟨3600000, .ok [], 5, .ok (100, 50), 10, .ok [1], 20, .ok [2],
   3, .ok (), 3, .ok ()⟩

/-- C4 counterexample: `exiftool.read` is awaited with no `withTimeout`
wrapper, so a metadata-extraction stage that takes an hour — exceeding
every bound the claim lists — does not abort the job: the run still ends
`completed`.  Not every stage of the pipeline is time-bounded. -/
theorem c4_extraction_stage_unbounded :
    c4SlowExifOutcomes.exifDur = 3600000 ∧
    ∃ states fsF,
      createThenProcess "T0" "T1" "T2" 3600500 "j1"
          [("originalName", .str "a.jpg"), ("imageData", .str "xy")]
          c4SlowExifOutcomes ⟨[], []⟩ [] = some (states, fsF) ∧
      (states.map (fun s => jobStatusIn s "j1")).getLast? =
        some (some (.str "completed")) := by
  refine ⟨rfl, ⟨_, _, rfl, ?_⟩⟩
  rfl

/-- C4 (amended): the thumbnail conversion, the full-size conversion and
the two metadata writes are bounded by 30s, 60s, 10s and 10s; whenever any
of them exceeds its bound the whole job is aborted as `failed` and the
record carries no `results` — no partial output; metadata extraction and
decoding are not time-bounded. -/
theorem c4_bounded_stages_abort (t1 t2 : String) (ptime : Nat)
    (o : StageOutcomes) (st : SysState) (fs : FS) (job : Obj)
    (jobId : String) (entry : StoreEntry)
    (hid : jget job "id" = some (.str jobId))
    (hst : storeGet st.store (jobKey jobId) = some entry)
    (hres : jget entry.value "results" = none)
    (htimeout : 30000 < o.thumbDur ∨ 60000 < o.fullDur ∨
      10000 < o.thumbMetaDur ∨ 10000 < o.fullMetaDur) :
    ∃ stF fsF,
      processJob true t1 t2 ptime o st fs job =
        ⟨stF, fsF, .ok (), [(afterProcessing t1 jobId entry st).1, stF]⟩ ∧
      jobStatusIn stF jobId = some (.str "failed") ∧
      jobFieldIn stF jobId "results" = none := by
  obtain ⟨stF, fsF, heq, hfs, hcase⟩ :=
    processJob_run t1 t2 ptime o st fs job jobId entry hid hst
  refine ⟨stF, fsF, heq, ?_⟩
  rcases hcase with ⟨res, hstF, hb1, hb2, hb3, hb4⟩ | ⟨e, hstF⟩
  · exfalso
    rcases htimeout with hb | hb | hb | hb <;> omega
  · subst hstF
    refine ⟨jobStatusIn_failedWrite _ _ _ _ _ _, ?_⟩
    rw [jobFieldIn_failedWrite_results, jget_afterProcessing_results, hres]

def c4Record : Obj :=
  [("id", .str "j4"), ("status", .str "queued"),
   ("originalName", .str "a.jpg"), ("imageData", .str "xy")]

def c4State : SysState := ⟨[(jobKey "j4", ⟨c4Record, 86400⟩)], []⟩

/-- C4 witness: the bounded-stage abort theorem applied to a concrete run
whose thumbnail conversion takes 30001 milliseconds. -/
theorem c4_bounded_stages_abort_witness :
    ∃ stF fsF,
      processJob true "T1" "T2" 7
          ⟨0, .ok [], 0, .ok (100, 50), 30001, .ok [1], 0, .ok [2],
           0, .ok (), 0, .ok ()⟩ c4State [] c4Record =
        ⟨stF, fsF, .ok (),
         [(afterProcessing "T1" "j4" ⟨c4Record, 86400⟩ c4State).1, stF]⟩ ∧
      jobStatusIn stF "j4" = some (.str "failed") ∧
      jobFieldIn stF "j4" "results" = none :=
  c4_bounded_stages_abort "T1" "T2" 7 _ c4State [] c4Record "j4"
    ⟨c4Record, 86400⟩ rfl rfl rfl (Or.inl (by decide))

/-! ### Claim C5 -/

/-- C5: on every exit path of `processJob` after temporary staging can
have begun — success, any stage failure, a timeout, even a failure before
staging — none of the three temp files of the job remains on disk, given
they are not present beforehand; the cleanup branch removes them
unconditionally, so a metadata-extraction failure also leaves none. -/
theorem c5_no_temp_files_after_exit (t1 t2 : String) (ptime : Nat)
    (o : StageOutcomes) (st : SysState) (fs : FS) (job : Obj)
    (jobId name0 : String) (entry : StoreEntry)
    (hid : jget job "id" = some (.str jobId))
    (hst : storeGet st.store (jobKey jobId) = some entry)
    (hname : getOriginalName job = .ok name0)
    (h1 : fsExists fs (tempOriginalPath jobId) = false)
    (h2 : fsExists fs (tempThumbPath jobId name0) = false)
    (h3 : fsExists fs (tempFullPath jobId name0) = false) :
    ∃ stF fsF,
      processJob true t1 t2 ptime o st fs job =
        ⟨stF, fsF, .ok (), [(afterProcessing t1 jobId entry st).1, stF]⟩ ∧
      fsExists fsF (tempOriginalPath jobId) = false ∧
      fsExists fsF (tempThumbPath jobId name0) = false ∧
      fsExists fsF (tempFullPath jobId name0) = false := by
  obtain ⟨stF, fsF, heq, hfs, _⟩ :=
    processJob_run t1 t2 ptime o st fs job jobId entry hid hst
  refine ⟨stF, fsF, heq, ?_⟩
  rcases hfs with rfl | ⟨name, fs', hname', rfl⟩
  · exact ⟨h1, h2, h3⟩
  · rw [hname] at hname'
    have hn : name0 = name := by
      injection hname'
    subst hn
    exact ⟨fsExists_cleanup_original _ _ _, fsExists_cleanup_thumb _ _ _,
      fsExists_cleanup_full _ _ _⟩

def c5Record : Obj :=
  [("id", .str "j5"), ("status", .str "queued"),
   ("originalName", .str "a.jpg"), ("imageData", .str "xy")]

def c5State : SysState := ⟨[(jobKey "j5", ⟨c5Record, 86400⟩)], []⟩

/-- C5 witness: the cleanup theorem applied to a concrete run whose
metadata extraction fails. -/
theorem c5_no_temp_files_after_exit_witness :
    ∃ stF fsF,
      processJob true "T1" "T2" 7
          ⟨5, .error "corrupt EXIF segment", 0, .ok (100, 50), 0, .ok [1],
           0, .ok [2], 0, .ok (), 0, .ok ()⟩ c5State [] c5Record =
        ⟨stF, fsF, .ok (),
         [(afterProcessing "T1" "j5" ⟨c5Record, 86400⟩ c5State).1, stF]⟩ ∧
      fsExists fsF (tempOriginalPath "j5") = false ∧
      fsExists fsF (tempThumbPath "j5" "a") = false ∧
      fsExists fsF (tempFullPath "j5" "a") = false :=
  c5_no_temp_files_after_exit "T1" "T2" 7 _ c5State [] c5Record "j5" "a"
    ⟨c5Record, 86400⟩ rfl rfl rfl rfl rfl rfl

/-! ### Claim C9 -/

/-- C9: with the store reachable and the job's record present, no
exception escapes `processJob` — whatever the stage outcomes, it returns
normally (`ret` is `ok`), the record ends in a terminal state, a failure
leaves a human-readable error message in the record, and the worker loop
unconditionally proceeds from any iteration to the next. -/
theorem c9_worker_loop_survives_failures (t1 t2 : String) (ptime : Nat)
    (o : StageOutcomes) (st : SysState) (fs : FS) (job : Obj)
    (jobId : String) (entry : StoreEntry)
    (hid : jget job "id" = some (.str jobId))
    (hst : storeGet st.store (jobKey jobId) = some entry) :
    ∃ stF fsF,
      processJob true t1 t2 ptime o st fs job =
        ⟨stF, fsF, .ok (), [(afterProcessing t1 jobId entry st).1, stF]⟩ ∧
      (jobStatusIn stF jobId = some (.str "completed") ∨
       (jobStatusIn stF jobId = some (.str "failed") ∧
        ∃ m, jobFieldIn stF jobId "error" = some (.str m))) ∧
      (∀ (env : IterEnv) (envs : List IterEnv) (st0 : SysState) (fs0 : FS),
        runWorker (env :: envs) st0 fs0 =
          runWorker envs (workerStep env st0 fs0).1 (workerStep env st0 fs0).2) := by
  obtain ⟨stF, fsF, heq, hfs, hcase⟩ :=
    processJob_run t1 t2 ptime o st fs job jobId entry hid hst
  refine ⟨stF, fsF, heq, ?_, fun env envs st0 fs0 => rfl⟩
  rcases hcase with ⟨res, hstF, _⟩ | ⟨e, hstF⟩
  · subst hstF
    exact Or.inl (jobStatusIn_completedWrite _ _ _ _ _ _)
  · subst hstF
    exact Or.inr ⟨jobStatusIn_failedWrite _ _ _ _ _ _,
      e, jobFieldIn_failedWrite_error _ _ _ _ _ _⟩

def c9Record : Obj :=
  [("id", .str "j9"), ("status", .str "queued"),
   ("originalName", .str "a.jpg"), ("imageData", .str "xy")]

def c9State : SysState := ⟨[(jobKey "j9", ⟨c9Record, 86400⟩)], []⟩

/-- C9 witness: the loop-survival theorem applied to a concrete run whose
decode stage throws. -/
theorem c9_worker_loop_survives_failures_witness :
    ∃ stF fsF,
      processJob true "T1" "T2" 7
          ⟨0, .ok [], 0, .error "unsupported image format", 0, .ok [1],
           0, .ok [2], 0, .ok (), 0, .ok ()⟩ c9State [] c9Record =
        ⟨stF, fsF, .ok (),
         [(afterProcessing "T1" "j9" ⟨c9Record, 86400⟩ c9State).1, stF]⟩ ∧
      (jobStatusIn stF "j9" = some (.str "completed") ∨
       (jobStatusIn stF "j9" = some (.str "failed") ∧
        ∃ m, jobFieldIn stF "j9" "error" = some (.str m))) ∧
      (∀ (env : IterEnv) (envs : List IterEnv) (st0 : SysState) (fs0 : FS),
        runWorker (env :: envs) st0 fs0 =
          runWorker envs (workerStep env st0 fs0).1 (workerStep env st0 fs0).2) :=
  c9_worker_loop_survives_failures "T1" "T2" 7 _ c9State [] c9Record "j9"
    ⟨c9Record, 86400⟩ rfl rfl

/-! ### Claim C8 -/

theorem jget_jsetFrom_ne (m : Obj) (k : String) (om : Obj) (k' : String)
    (h : k' ≠ k) :
    jget (jsetFrom m k om) k' = jget m k' := by
  unfold jsetFrom
  cases jget om k with
  | none => rfl
  | some v => exact jget_jset_ne m k k' v h

theorem jget_jsetFrom_self (m : Obj) (k : String) (om : Obj) :
    jget (jsetFrom m k om) k =
      match jget om k with
      | some v => some v
      | none => jget m k := by
  unfold jsetFrom
  cases jget om k with
  | none => rfl
  | some v => exact jget_jset_self m k v

theorem jget_metaBase_gps (w h : Int) (om : Obj) (k : String)
    (hk : k = "GPSLatitude" ∨ k = "GPSLongitude" ∨ k = "GPSLatitudeRef" ∨
      k = "GPSLongitudeRef") :
    jget (metaBase w h om) k = none := by
  rcases hk with rfl | rfl | rfl | rfl
  all_goals
    unfold metaBase
    split
    · rw [jget_jsetFrom_ne _ _ _ _ (by decide), jget_jset_ne _ _ _ _ (by decide),
        jget_jset_ne _ _ _ _ (by decide)]
      rfl
    · split
      · rw [jget_jsetFrom_ne _ _ _ _ (by decide),
          jget_jset_ne _ _ _ _ (by decide), jget_jset_ne _ _ _ _ (by decide)]
        rfl
      · split
        · rw [jget_jsetFrom_ne _ _ _ _ (by decide),
            jget_jset_ne _ _ _ _ (by decide), jget_jset_ne _ _ _ _ (by decide)]
          rfl
        · rw [jget_jset_ne _ _ _ _ (by decide), jget_jset_ne _ _ _ _ (by decide)]
          rfl

/-- The original metadata of the C8 counterexample: both coordinates are
present, the latitude happens to lie on the equator. -/
def c8ZeroLatOm : Obj :=
  [("GPSLatitude", .num 0), ("GPSLongitude", .num 10),
   ("GPSLatitudeRef", .str "N"), ("GPSLongitudeRef", .str "E")]

def c8Record : Obj :=
  [("id", .str "j8"), ("status", .str "queued"),
   ("originalName", .str "a.jpg"), ("imageData", .str "xy")]

def c8State : SysState := ⟨[(jobKey "j8", ⟨c8Record, 86400⟩)], []⟩

/-- C8 counterexample: with both GPS coordinates present in the original
but the latitude equal to 0 — present yet falsy in JavaScript — no GPS
field is written into the preserved metadata, and a full run reports
`preservedMetadata.hasGPS = false`; presence of both coordinates therefore
does not suffice for the GPS fields to be written. -/
theorem c8_present_zero_latitude_dropped :
    (jget c8ZeroLatOm "GPSLatitude").isSome = true ∧
    (jget c8ZeroLatOm "GPSLongitude").isSome = true ∧
    jget (buildMetadataToPreserve 100 50 c8ZeroLatOm) "GPSLatitude" = none ∧
    jget (buildMetadataToPreserve 100 50 c8ZeroLatOm) "GPSLongitude" = none ∧
    jget (buildMetadataToPreserve 100 50 c8ZeroLatOm) "GPSLatitudeRef" = none ∧
    jget (buildMetadataToPreserve 100 50 c8ZeroLatOm) "GPSLongitudeRef" = none ∧
    ∃ stF fsF tr,
      processJob true "T1" "T2" 7
          ⟨0, .ok c8ZeroLatOm, 0, .ok (100, 50), 0, .ok [1], 0, .ok [2],
           0, .ok (), 0, .ok ()⟩ c8State [] c8Record =
        ⟨stF, fsF, .ok (), tr⟩ ∧
      jobStatusIn stF "j8" = some (.str "completed") ∧
      jvalGetOpt (jvalGetOpt (jobFieldIn stF "j8" "results")
        "preservedMetadata") "hasGPS" = some (.bool false) :=
  ⟨rfl, rfl, rfl, rfl, rfl, rfl, ⟨_, _, _, rfl, rfl, rfl⟩⟩

/-- C8 (amended): the four GPS fields are copied into the metadata written
to both variants exactly when both coordinates are present AND truthy (a
zero coordinate, being falsy in JavaScript, counts as missing); when they
are copied, each carries the original's value; and the result's
`preservedMetadata.hasGPS` always reports that same truthiness condition,
so for an input lacking GPS data the variants get no GPS fields and
`hasGPS` is false. -/
theorem c8_gps_written_iff_truthy (w h : Int) (om : Obj) :
    ((truthyOpt (jget om "GPSLatitude") &&
        truthyOpt (jget om "GPSLongitude")) = true →
      jget (buildMetadataToPreserve w h om) "GPSLatitude" =
        jget om "GPSLatitude" ∧
      jget (buildMetadataToPreserve w h om) "GPSLongitude" =
        jget om "GPSLongitude" ∧
      jget (buildMetadataToPreserve w h om) "GPSLatitudeRef" =
        jget om "GPSLatitudeRef" ∧
      jget (buildMetadataToPreserve w h om) "GPSLongitudeRef" =
        jget om "GPSLongitudeRef") ∧
    ((truthyOpt (jget om "GPSLatitude") &&
        truthyOpt (jget om "GPSLongitude")) = false →
      jget (buildMetadataToPreserve w h om) "GPSLatitude" = none ∧
      jget (buildMetadataToPreserve w h om) "GPSLongitude" = none ∧
      jget (buildMetadataToPreserve w h om) "GPSLatitudeRef" = none ∧
      jget (buildMetadataToPreserve w h om) "GPSLongitudeRef" = none) ∧
    (∀ (name : String) (tb fb ib : List Nat),
      jvalGetOpt (jvalGetOpt (some (buildResults name tb fb ib om w h))
        "preservedMetadata") "hasGPS" =
      some (.bool (truthyOpt (jget om "GPSLatitude") &&
                   truthyOpt (jget om "GPSLongitude")))) := by
  refine ⟨?_, ?_, fun name tb fb ib => rfl⟩
  · intro hgps
    unfold buildMetadataToPreserve
    rw [if_pos hgps]
    have hlat : ∃ v, jget om "GPSLatitude" = some v := by
      cases hv : jget om "GPSLatitude" with
      | none => rw [hv] at hgps; simp [truthyOpt] at hgps
      | some v => exact ⟨v, rfl⟩
    have hlng : ∃ v, jget om "GPSLongitude" = some v := by
      cases hv : jget om "GPSLongitude" with
      | none => rw [hv] at hgps; simp [truthyOpt] at hgps
      | some v => exact ⟨v, rfl⟩
    refine ⟨?_, ?_, ?_, ?_⟩
    · rw [jget_jsetFrom_ne _ _ _ _ (by decide), jget_jsetFrom_ne _ _ _ _ (by decide),
        jget_jsetFrom_ne _ _ _ _ (by decide), jget_jsetFrom_self]
      obtain ⟨v, hv⟩ := hlat
      rw [hv]
    · rw [jget_jsetFrom_ne _ _ _ _ (by decide), jget_jsetFrom_ne _ _ _ _ (by decide),
        jget_jsetFrom_self]
      obtain ⟨v, hv⟩ := hlng
      rw [hv]
    · rw [jget_jsetFrom_ne _ _ _ _ (by decide), jget_jsetFrom_self]
      cases hv : jget om "GPSLatitudeRef" with
      | some v => rfl
      | none =>
        rw [jget_jsetFrom_ne _ _ _ _ (by decide),
          jget_jsetFrom_ne _ _ _ _ (by decide),
          jget_metaBase_gps _ _ _ _ (Or.inr (Or.inr (Or.inl rfl)))]
    · rw [jget_jsetFrom_self]
      cases hv : jget om "GPSLongitudeRef" with
      | some v => rfl
      | none =>
        rw [jget_jsetFrom_ne _ _ _ _ (by decide),
          jget_jsetFrom_ne _ _ _ _ (by decide),
          jget_jsetFrom_ne _ _ _ _ (by decide),
          jget_metaBase_gps _ _ _ _ (Or.inr (Or.inr (Or.inr rfl)))]
  · intro hgps
    unfold buildMetadataToPreserve
    rw [if_neg (by simp [hgps])]
    exact ⟨jget_metaBase_gps _ _ _ _ (Or.inl rfl),
      jget_metaBase_gps _ _ _ _ (Or.inr (Or.inl rfl)),
      jget_metaBase_gps _ _ _ _ (Or.inr (Or.inr (Or.inl rfl))),
      jget_metaBase_gps _ _ _ _ (Or.inr (Or.inr (Or.inr rfl)))⟩

/-- Original metadata with truthy GPS data, for the C8 witness. -/
def c8GpsOm : Obj :=
  [("GPSLatitude", .num 45), ("GPSLongitude", .num 9),
   ("GPSLatitudeRef", .str "N"), ("GPSLongitudeRef", .str "E")]

/-- C8 witness: the truthiness theorem applied once to an input with
truthy GPS data and once to an input with none. -/
theorem c8_gps_written_iff_truthy_witness :
    (jget (buildMetadataToPreserve 100 50 c8GpsOm) "GPSLatitude" =
        jget c8GpsOm "GPSLatitude" ∧
      jget (buildMetadataToPreserve 100 50 c8GpsOm) "GPSLongitude" =
        jget c8GpsOm "GPSLongitude" ∧
      jget (buildMetadataToPreserve 100 50 c8GpsOm) "GPSLatitudeRef" =
        jget c8GpsOm "GPSLatitudeRef" ∧
      jget (buildMetadataToPreserve 100 50 c8GpsOm) "GPSLongitudeRef" =
        jget c8GpsOm "GPSLongitudeRef") ∧
    (jget (buildMetadataToPreserve 100 50 []) "GPSLatitude" = none ∧
      jget (buildMetadataToPreserve 100 50 []) "GPSLongitude" = none ∧
      jget (buildMetadataToPreserve 100 50 []) "GPSLatitudeRef" = none ∧
      jget (buildMetadataToPreserve 100 50 []) "GPSLongitudeRef" = none) ∧
    jvalGetOpt (jvalGetOpt (some (buildResults "a" [1] [2] [3] [] 100 50))
      "preservedMetadata") "hasGPS" = some (.bool false) :=
  ⟨(c8_gps_written_iff_truthy 100 50 c8GpsOm).1 rfl,
   (c8_gps_written_iff_truthy 100 50 []).2.1 rfl,
   (c8_gps_written_iff_truthy 100 50 []).2.2 "a" [1] [2] [3]⟩

end Jpeg2Avif

